import Mathlib

set_option maxRecDepth 8000

/-!
Verification of `pdf_to_lc_doc_api` (PDFConverter) against its specification.

The development shallowly embeds `src/pdf_to_lc_doc_api/converter.py`:
SHA-256 hashing (`_calculate_file_hash`), pathlib `stem` semantics
(`_get_document_metadata`), the per-page analysis pipeline (`_process_page`),
the page loop (`_extract_text`), and document assembly (`convert`) with an
explicit dict store and an event trace recording file reads and
external-service calls.
-/

namespace PdfToLcDoc

/-! ### SHA-256 over byte lists (models `hashlib.sha256(data).hexdigest()`) -/

def w32 : Nat := 4294967296

def rotr32 (n x : Nat) : Nat := ((x >>> n) ||| (x <<< (32 - n))) % w32

def shr32 (n x : Nat) : Nat := x >>> n

def xor3 (a b c : Nat) : Nat := (a ^^^ b) ^^^ c

def not32 (a : Nat) : Nat := a ^^^ (w32 - 1)

def bigSigma0 (x : Nat) : Nat := xor3 (rotr32 2 x) (rotr32 13 x) (rotr32 22 x)

def bigSigma1 (x : Nat) : Nat := xor3 (rotr32 6 x) (rotr32 11 x) (rotr32 25 x)

def smallSigma0 (x : Nat) : Nat := xor3 (rotr32 7 x) (rotr32 18 x) (shr32 3 x)

def smallSigma1 (x : Nat) : Nat := xor3 (rotr32 17 x) (rotr32 19 x) (shr32 10 x)

def chFn (x y z : Nat) : Nat := (x &&& y) ^^^ (not32 x &&& z)

def majFn (x y z : Nat) : Nat := xor3 (x &&& y) (x &&& z) (y &&& z)

/-- The 64 round constants of FIPS 180-4 section 4.2.2, in decimal. -/
def roundConstants : List Nat :=
  [1116352408, 1899447441, 3049323471, 3921009573, 961987163, 1508970993,
   2453635748, 2870763221, 3624381080, 310598401, 607225278, 1426881987,
   1925078388, 2162078206, 2614888103, 3248222580, 3835390401, 4022224774,
   264347078, 604807628, 770255983, 1249150122, 1555081692, 1996064986,
   2554220882, 2821834349, 2952996808, 3210313671, 3336571891, 3584528711,
   113926993, 338241895, 666307205, 773529912, 1294757372, 1396182291,
   1695183700, 1986661051, 2177026350, 2456956037, 2730485921, 2820302411,
   3259730800, 3345764771, 3516065817, 3600352804, 4094571909, 275423344,
   430227734, 506948616, 659060556, 883997877, 958139571, 1322822218,
   1537002063, 1747873779, 1955562222, 2024104815, 2227730452, 2361852424,
   2428436474, 2756734187, 3204031479, 3329325298]

structure Hash8 where
  a : Nat
  b : Nat
  c : Nat
  d : Nat
  e : Nat
  f : Nat
  g : Nat
  h : Nat
deriving DecidableEq

/-- The initial hash value of FIPS 180-4 section 5.3.3, in decimal. -/
def initH : Hash8 :=
  ⟨1779033703, 3144134277, 1013904242, 2773480762, 1359893119, 2600822924, 528734635, 1541459225⟩

def roundStep (st : Hash8) (kw : Nat × Nat) : Hash8 :=
  let t1 := (st.h + bigSigma1 st.e + chFn st.e st.f st.g + kw.2 + kw.1) % w32
  let t2 := (bigSigma0 st.a + majFn st.a st.b st.c) % w32
  ⟨(t1 + t2) % w32, st.a, st.b, st.c, (st.d + t1) % w32, st.e, st.f, st.g⟩

def extendStep (ws : List Nat) : List Nat :=
  ((smallSigma1 (ws.getD 1 0) + ws.getD 6 0 + smallSigma0 (ws.getD 14 0) + ws.getD 15 0) % w32) :: ws

def buildSchedule (ws : List Nat) : Nat → List Nat
  | 0 => ws
  | n + 1 => extendStep (buildSchedule ws n)

def messageSchedule (block : List Nat) : List Nat :=
  (buildSchedule block.reverse 48).reverse

def compressBlock (st : Hash8) (block : List Nat) : Hash8 :=
  let r := ((messageSchedule block).zip roundConstants).foldl roundStep st
  ⟨(st.a + r.a) % w32, (st.b + r.b) % w32, (st.c + r.c) % w32, (st.d + r.d) % w32,
   (st.e + r.e) % w32, (st.f + r.f) % w32, (st.g + r.g) % w32, (st.h + r.h) % w32⟩

def padBytes (msg : List Nat) : List Nat :=
  let len := msg.length
  let k := (120 - ((len + 1) % 64)) % 64
  let bitLen := len * 8
  msg ++ 128 :: (List.replicate k 0 ++
    [(bitLen >>> 56) % 256, (bitLen >>> 48) % 256, (bitLen >>> 40) % 256, (bitLen >>> 32) % 256,
     (bitLen >>> 24) % 256, (bitLen >>> 16) % 256, (bitLen >>> 8) % 256, bitLen % 256])

def bytesToWords : List Nat → List Nat
  | b0 :: b1 :: b2 :: b3 :: rest => (((b0 * 256 + b1) * 256 + b2) * 256 + b3) :: bytesToWords rest
  | _ => []

def chunkWords16 : List Nat → List (List Nat)
  | w0 :: w1 :: w2 :: w3 :: w4 :: w5 :: w6 :: w7 ::
      w8 :: w9 :: w10 :: w11 :: w12 :: w13 :: w14 :: w15 :: rest =>
    [w0, w1, w2, w3, w4, w5, w6, w7, w8, w9, w10, w11, w12, w13, w14, w15] :: chunkWords16 rest
  | _ => []

def sha256State (bytes : List Nat) : Hash8 :=
  (chunkWords16 (bytesToWords (padBytes bytes))).foldl compressBlock initH

def hexDigitChar (n : Nat) : Char :=
  if n < 10 then Char.ofNat (48 + n) else Char.ofNat (87 + n)

def wordHex (x : Nat) : String :=
  ⟨[hexDigitChar ((x >>> 28) % 16), hexDigitChar ((x >>> 24) % 16), hexDigitChar ((x >>> 20) % 16),
    hexDigitChar ((x >>> 16) % 16), hexDigitChar ((x >>> 12) % 16), hexDigitChar ((x >>> 8) % 16),
    hexDigitChar ((x >>> 4) % 16), hexDigitChar (x % 16)]⟩

/-- `hashlib.sha256(bytes).hexdigest()`: the 256-bit digest rendered as hex. -/
def sha256hex (bytes : List Nat) : String :=
  let s := sha256State bytes
  wordHex s.a ++ wordHex s.b ++ wordHex s.c ++ wordHex s.d ++
    wordHex s.e ++ wordHex s.f ++ wordHex s.g ++ wordHex s.h

/-- A file system maps a path to the byte content of a readable file there. -/
abbrev FileSystem : Type := String → Option (List Nat)

/-- `PDFConverter._calculate_file_hash`: open the file, read all bytes,
return the SHA-256 hex digest; `none` models the I/O error on an
unreadable path. -/
def calculate_file_hash (files : FileSystem) (p : String) : Option String :=
  (files p).map sha256hex

def isLowerHexDigit (c : Char) : Prop :=
  ('0' ≤ c ∧ c ≤ '9') ∨ ('a' ≤ c ∧ c ≤ 'f')

instance (c : Char) : Decidable (isLowerHexDigit c) := by
  unfold isLowerHexDigit; infer_instance

/-- Decidable rendering of "every character is a lowercase hex digit". -/
def allLowerHex (s : String) : Bool :=
  s.data.all fun c => decide (isLowerHexDigit c)

/-! ### Page analysis (`PageAnalysis`, `_encode_page_image`, `_process_page`) -/

/-- Pydantic model `PageAnalysis` of `converter.py`: converted markdown
text, one-sentence summary, and the keyword list (typed `List[str]` with no
length bound). -/
structure PageAnalysis where
  markdown_text : String
  summary : String
  keywords : List String
deriving DecidableEq

/-- Pydantic model `DocumentSummary` of `converter.py`. -/
structure DocumentSummary where
  summary : String
  keywords : List String
deriving DecidableEq

/-- The value of `completion.choices[0].message.content`. The OpenAI client
delivers a string (free text / JSON text); a stubbed client could deliver a
mapping whose entries validate as the pydantic fields; any other shape
(missing keys, wrong field types, `None`) is `malformed`, carrying the
TypeError / ValidationError message that unpacking it raises. -/
inductive ApiContent where
  | text (s : String)
  | mapping (markdown_text : String) (summary : String) (keywords : List String)
  | malformed (err : String)
deriving DecidableEq

/-- Message of the TypeError raised by `PageAnalysis(**content)` when
`content` is a `str`, as it is for every real client response. -/
def starUnpackError : String :=
  "pdf_to_lc_doc_api.converter.PageAnalysis() argument after ** must be a mapping, not str"

/-- `PageAnalysis(**response_dict)` at line 133 of `converter.py`. -/
def parsePageContent : ApiContent → Except String PageAnalysis
  | .text _ => .error starUnpackError
  | .mapping m s k => .ok ⟨m, s, k⟩
  | .malformed e => .error e

deriving instance DecidableEq for Except

/-- Behaviour of the effectful steps inside `_process_page` for one page:
the raw outcome of `page.get_pixmap(...)`/PNG/base64 encoding, and the
outcome of `client.chat.completions.create` (its `message.content`). -/
structure PageCallOutcome where
  rawEncode : Except String String
  apiResult : Except String ApiContent
deriving DecidableEq

/-- `PDFConverter._encode_page_image`: wraps any rasterisation failure in
`ValueError("Error converting page to image: ...")`. -/
def encode_page_image (o : PageCallOutcome) : Except String String :=
  match o.rawEncode with
  | .ok b64 => .ok b64
  | .error e => .error ("Error converting page to image: " ++ e)

/-- The `try:` block of `PDFConverter._process_page`: encode the page,
call the service, unpack the content into a `PageAnalysis`. -/
def pageTryBlock (o : PageCallOutcome) : Except String PageAnalysis := do
  let _base64_image ← encode_page_image o
  let content ← o.apiResult
  parsePageContent content

/-- `PDFConverter._process_page`: never raises; any exception from the
`try:` block is turned into the empty/error-flagged analysis. -/
def process_page (o : PageCallOutcome) : PageAnalysis :=
  match pageTryBlock o with
  | .ok a => a
  | .error e => ⟨"", "Error processing page: " ++ e, []⟩

/-- `true` exactly when the service content unpacks as a mapping, i.e. when
`PageAnalysis(**response_dict)` succeeds. -/
def isMappingContent : Except String ApiContent → Bool
  | .ok (.mapping _ _ _) => true
  | _ => false

/-- Observable effects of the conversion: reading a file's bytes, and one
request to the external content-generation service. -/
inductive Event where
  | fileRead (path : String)
  | serviceCall
deriving DecidableEq

/-- Service calls issued by one `_process_page` invocation: the
`completions.create` call is reached only when encoding succeeded. -/
def pageCallTrace (o : PageCallOutcome) : List Event :=
  match o.rawEncode with
  | .ok _ => [.serviceCall]
  | .error _ => []

/-! ### The page loop of `_extract_text` -/

/-- The characters Python `str.strip()` strips: exactly those with
`str.isspace()` true, i.e. code points 9-13, 28-32 (file/group/record/unit
separators and space), 0x85 (NEL), 0xA0 (NBSP), 0x1680 (Ogham space mark),
0x2000-0x200A (typographic spaces), 0x2028/0x2029 (line/paragraph
separator), 0x202F, 0x205F, and 0x3000 (ideographic space). -/
def isPyWs (c : Char) : Bool :=
  let n := c.toNat
  (9 ≤ n && n ≤ 13) || (28 ≤ n && n ≤ 32) || n == 133 || n == 160 || n == 5760 ||
    (8192 ≤ n && n ≤ 8202) || n == 8232 || n == 8233 || n == 8239 || n == 8287 ||
    n == 12288

/-- Python `raw_text.strip()`: drop the whitespace characters above from
both ends. -/
def pyStrip (s : String) : String :=
  ⟨((s.data.dropWhile isPyWs).reverse.dropWhile isPyWs).reverse⟩

/-- One PDF page as the loop sees it: its embedded raw text
(`page.get_text("text")`) and the behaviour of the external calls that
`_process_page` would make on it. -/
structure Page where
  raw_text : String
  outcome : PageCallOutcome
deriving DecidableEq

/-- `not raw_text.strip()` — the condition under which the loop of
`_extract_text` skips the page. -/
def pageBlank (p : Page) : Bool :=
  (pyStrip p.raw_text).isEmpty

/-- `f"Page {page_num} Summary: {analysis.summary}"`. -/
def summaryLine (n : Nat) (a : PageAnalysis) : String :=
  "Page " ++ toString n ++ " Summary: " ++ a.summary

/-- The `for page_num, page in enumerate(doc, 1)` loop of `_extract_text`,
started at page number `n`: accumulates markdown sections, page summary
lines, and the keyword set, skipping blank pages. -/
def extractLoop : List Page → Nat → List String × List String × Finset String
  | [], _ => ([], [], ∅)
  | p :: rest, n =>
    let r := extractLoop rest (n + 1)
    if pageBlank p then r
    else
      let a := process_page p.outcome
      (a.markdown_text :: r.1, summaryLine n a :: r.2.1, a.keywords.toFinset ∪ r.2.2)

/-- The non-blank pages paired with their 1-based physical page numbers:
the spec-side description of which pages the loop processes. -/
def processedPages (pages : List Page) : List (Nat × Page) :=
  (List.enumFrom 1 pages).filter fun np => !pageBlank np.2

/-- `completion.choices[0].message.content` of the final summary call. -/
inductive SumContent where
  | text (s : String)
  | mapping (summary : String) (keywords : List String)
  | malformed (err : String)
deriving DecidableEq

/-- Message of the TypeError raised by `DocumentSummary(**content)` when
`content` is a `str`. -/
def sumUnpackError : String :=
  "pdf_to_lc_doc_api.converter.DocumentSummary() argument after ** must be a mapping, not str"

/-- `DocumentSummary(**response_dict)` at line 184 of `converter.py`. -/
def parseSumContent : SumContent → Except String DocumentSummary
  | .text _ => .error sumUnpackError
  | .mapping s k => .ok ⟨s, k⟩
  | .malformed e => .error e

/-- `PDFConverter._generate_final_summary`: builds the request from the
joined page summaries and the keyword set, and returns the parsed structured
response; on any failure returns the empty summary. -/
def generate_final_summary (_page_summaries : String) (_all_keywords : Finset String)
    (o : Except String SumContent) : DocumentSummary :=
  match (do parseSumContent (← o)) with
  | .ok d => d
  | .error _ => ⟨"", []⟩

/-- The execution environment of one conversion: the file system, whether
`OPENAI_API_KEY` is configured, the pages `fitz.open` yields per path, and
the behaviour of the final summary service call. -/
structure Env where
  files : FileSystem
  apiKeyPresent : Bool
  pages : String → List Page
  sumOutcome : Except String SumContent

/-- Message of the OpenAIError raised by `OpenAI()` when no API key is
configured in the environment. -/
def openAIKeyError : String :=
  "The api_key client option must be set either by passing api_key to the client or by setting the OPENAI_API_KEY environment variable"

/-- Service calls issued by `_extract_text` once the client exists: one per
non-blank page whose rasterisation succeeds, plus the final summary call. -/
def extractTrace (pages : List Page) : List Event :=
  (pages.map fun p => if pageBlank p then [] else pageCallTrace p.outcome).flatten
    ++ [.serviceCall]

/-- `PDFConverter._extract_text`: `client = OpenAI()` raises when the key is
missing; otherwise run the page loop, join the sections with blank lines,
and make the final summary call. Paired with its service-call trace. -/
def extract_text (env : Env) (path : String) :
    Except String ((String × String × List String) × List Event) :=
  if env.apiKeyPresent then
    let r := extractLoop (env.pages path) 1
    let fin := generate_final_summary (String.intercalate "\n\n" r.2.1) r.2.2 env.sumOutcome
    .ok ((String.intercalate "\n\n" r.1, fin.summary, fin.keywords),
         extractTrace (env.pages path))
  else
    .error openAIKeyError

/-! ### Dicts, paths, and `convert` -/

/-- Metadata values: the computed entries are strings or string lists, and
caller-supplied entries range over the same values. -/
inductive DVal where
  | str (s : String)
  | strs (l : List String)
deriving DecidableEq

/-- A Python dict preserving insertion order of keys. -/
abbrev Dict : Type := List (String × DVal)

def dictGet : Dict → String → Option DVal
  | [], _ => none
  | (k, w) :: d, key => if k = key then some w else dictGet d key

/-- `d[key] = v`: overwrite in place if present, append otherwise. -/
def dictSet : Dict → String → DVal → Dict
  | [], key, v => [(key, v)]
  | (k, w) :: d, key, v => if k = key then (k, v) :: d else (k, w) :: dictSet d key v

def dictKeys (d : Dict) : List String :=
  d.map Prod.fst

/-- Python `d.update(other)`: insert the entries of `other` in order. -/
def dictUpdate (d other : Dict) : Dict :=
  other.foldl (fun acc kv => dictSet acc kv.1 kv.2) d

/-- Split a character list on `/`, keeping empty segments (the semantics of
`p.split("/")`). -/
def splitSlashAux : List Char → List Char → List String
  | [], acc => [⟨acc.reverse⟩]
  | c :: cs, acc => if c = '/' then ⟨acc.reverse⟩ :: splitSlashAux cs [] else splitSlashAux cs (c :: acc)

/-- `pathlib.PurePath(p).name`: the final path component (empty and `.`
segments are dropped when the path is parsed). -/
def pathName (p : String) : String :=
  (((splitSlashAux p.data []).filter fun s => !(s == "" || s == ".")).getLast?).getD ""

/-- `pathlib.PurePath(p).stem`: the name without its suffix; a suffix exists
only when the last dot of the name sits strictly inside it (neither first
nor last character). -/
def pathStem (p : String) : String :=
  let name := pathName p
  let cs := name.data
  match cs.reverse.findIdx? fun c => c == '.' with
  | none => name
  | some j =>
    let i := cs.length - 1 - j
    if 0 < i ∧ i < cs.length - 1 then ⟨cs.take i⟩ else name

/-- The heap of caller-visible dicts; `convert` allocates its own
`doc_metadata` dict on top and may read (never write) the caller's. -/
abbrev Store : Type := List Dict

def storeGet (st : Store) (i : Nat) : Dict :=
  st.getD i []

def storeModify (st : Store) (i : Nat) (f : Dict → Dict) : Store :=
  st.set i (f (storeGet st i))

/-- The exceptions `convert` can surface. -/
inductive PyError where
  | fileNotFound (msg : String)
  | valueError (msg : String)
deriving DecidableEq

/-- `langchain.schema.Document(page_content=..., metadata=...)`. -/
structure PyDocument where
  page_content : String
  metadata : Dict
deriving DecidableEq

/-- Result of a `convert` run: the returned document or raised error, the
final dict store, and the trace of file reads and service calls in order. -/
structure ConvertOut where
  result : Except PyError PyDocument
  store : Store
  trace : List Event
deriving DecidableEq

/-- `PDFConverter._get_document_metadata`: the fresh dict with the title
(file name without extension) and the content hash of the file's bytes. -/
def get_document_metadata (path : String) (bytes : List Nat) : Dict :=
  [("title", .str (pathStem path)), ("document_id", .str (sha256hex bytes))]

/-- `PDFConverter.convert`: check existence, compute base metadata (reading
the file for the hash), extract, attach summary/keywords, merge the
caller-supplied metadata last, and wrap any exception of those steps in
`ValueError("Error processing PDF: ...")`. `callerRef` is the caller's
`metadata` argument (`none` models `None`); `if metadata:` is false for
`None` and for an empty dict. -/
def convert (env : Env) (pdf_path : String) (callerRef : Option Nat) (store : Store) :
    ConvertOut :=
  match env.files pdf_path with
  | none => ⟨.error (.fileNotFound ("PDF file not found: " ++ pdf_path)), store, []⟩
  | some bytes =>
    let docRef := store.length
    let store1 := store ++ [get_document_metadata pdf_path bytes]
    match extract_text env pdf_path with
    | .error e =>
      ⟨.error (.valueError ("Error processing PDF: " ++ e)), store1, [.fileRead pdf_path]⟩
    | .ok ((content, summary, keywords), callTrace) =>
      let store2 := storeModify store1 docRef fun d => dictSet d "document_summary" (.str summary)
      let store3 := storeModify store2 docRef fun d => dictSet d "keywords" (.strs keywords)
      let store4 :=
        match callerRef with
        | none => store3
        | some r =>
          if (storeGet store3 r).isEmpty then store3
          else storeModify store3 docRef fun d => dictUpdate d (storeGet store3 r)
      ⟨.ok ⟨content, storeGet store4 docRef⟩, store4, .fileRead pdf_path :: callTrace⟩

/-- Lookup of a metadata key on the document a successful `convert` returned. -/
def convertMetadataLookup (out : ConvertOut) (k : String) : Option DVal :=
  match out.result with
  | .ok d => dictGet d.metadata k
  | .error _ => none

/-- The state of `doc_metadata` after steps 4-5 of `convert`: base metadata
with the extracted summary and keywords attached (derived normal form of the
dict writes of lines 256-263 of `converter.py`). -/
def assembledMeta (path : String) (bytes : List Nat) (s : String) (kw : List String) : Dict :=
  dictSet (dictSet (get_document_metadata path bytes) "document_summary" (.str s))
    "keywords" (.strs kw)

/-! ### Concrete instances used to exercise the theorems -/

def fsA : FileSystem := fun p => if p = "a.pdf" then some [97, 98, 99] else none

def fsB : FileSystem := fun p => if p = "dir/b.bin" then some [97, 98, 99] else none

/-- A whitespace-only page (would be skipped by the loop). -/
def pBlankEx : Page := ⟨" \n\t", ⟨.ok "img", .ok (.mapping "B" "bs" ["x"])⟩⟩

/-- A page with text whose rasterisation fails (analysis degrades). -/
def pFailEx : Page := ⟨"hello", ⟨.error "page is None", .ok (.text "{}")⟩⟩

/-- A page with text whose analysis succeeds with a mapping response. -/
def pGoodEx : Page := ⟨"world", ⟨.ok "img", .ok (.mapping "## World" "w sum" ["alpha", "beta"])⟩⟩

/-- Environment with a configured key and a three-page document. -/
def envExtract : Env :=
  ⟨fun p => if p = "doc.pdf" then some [97, 98, 99] else none, true,
   fun _ => [pBlankEx, pFailEx, pGoodEx], .ok (.mapping "docsum" ["kw"])⟩

/-- Environment with an existing file but no configured API key. -/
def envNoKey : Env :=
  ⟨fun p => if p = "doc.pdf" then some [37, 80, 68, 70] else none, false,
   fun _ => [], .error "unused"⟩

/-- Environment with a configured key and a zero-page document. -/
def envPlain : Env :=
  ⟨fun p => if p = "dir/doc.pdf" then some [37] else none, true,
   fun _ => [], .error "no network"⟩

/-! ### Validation of the SHA-256 embedding on known answers -/

/-- FIPS 180-4 test vector: digest of the empty message. -/
theorem sha256hex_empty_vector :
    sha256hex [] = "e3b0c44298fc1c149afbf4c8996fb92427ae41e4649b934ca495991b7852b855" := by
  decide

/-- FIPS 180-4 test vector: digest of "abc". -/
theorem sha256hex_abc_vector :
    sha256hex [97, 98, 99] =
      "ba7816bf8f01cfea414140de5dae2223b00361a396177a9cb410ff61f20015ad" := by
  decide

/-! ### Hex rendering lemmas -/

theorem wordHex_data (x : Nat) :
    (wordHex x).data =
      [hexDigitChar ((x >>> 28) % 16), hexDigitChar ((x >>> 24) % 16),
       hexDigitChar ((x >>> 20) % 16), hexDigitChar ((x >>> 16) % 16),
       hexDigitChar ((x >>> 12) % 16), hexDigitChar ((x >>> 8) % 16),
       hexDigitChar ((x >>> 4) % 16), hexDigitChar (x % 16)] := rfl

theorem wordHex_length (x : Nat) : (wordHex x).length = 8 := rfl

theorem hexDigitChar_lt16_lower (m : Nat) (h : m < 16) : isLowerHexDigit (hexDigitChar m) := by
  interval_cases m <;> decide

theorem mem_wordHex_lower (x : Nat) (c : Char) (h : c ∈ (wordHex x).data) :
    isLowerHexDigit c := by
  rw [wordHex_data] at h
  simp only [List.mem_cons, List.not_mem_nil, or_false] at h
  rcases h with rfl | rfl | rfl | rfl | rfl | rfl | rfl | rfl <;>
    exact hexDigitChar_lt16_lower _ (Nat.mod_lt _ (by norm_num))

theorem sha256hex_length (bytes : List Nat) : (sha256hex bytes).length = 64 := by
  simp only [sha256hex, String.length_append, wordHex_length]

theorem allLowerHex_sha256hex (bytes : List Nat) : allLowerHex (sha256hex bytes) = true := by
  simp only [allLowerHex, List.all_eq_true, decide_eq_true_eq]
  intro c hc
  simp only [sha256hex, String.data_append, List.mem_append] at hc
  rcases hc with ((((((h | h) | h) | h) | h) | h) | h) | h <;> exact mem_wordHex_lower _ _ h

/-- C1: for every readable file, `_calculate_file_hash` (metadata key
`document_id`) is the SHA-256 digest of the file's exact bytes rendered as a
64-character lowercase hexadecimal string; it is deterministic and depends
only on the byte content, not on the file's name or path. -/
theorem file_hash_is_sha256_hex (fs fs2 : FileSystem) (p q : String) (bytes : List Nat)
    (h : fs p = some bytes) (h2 : fs2 q = some bytes) :
    calculate_file_hash fs p = some (sha256hex bytes) ∧
    (sha256hex bytes).length = 64 ∧
    allLowerHex (sha256hex bytes) = true ∧
    calculate_file_hash fs2 q = calculate_file_hash fs p := by
  refine ⟨?_, sha256hex_length bytes, allLowerHex_sha256hex bytes, ?_⟩
  · simp [calculate_file_hash, h]
  · simp [calculate_file_hash, h, h2]

/-- Witness for C1 at a concrete file system: the same three bytes stored
under two different names and paths. -/
theorem file_hash_is_sha256_hex_witness :
    calculate_file_hash fsA "a.pdf" = some (sha256hex [97, 98, 99]) ∧
    (sha256hex [97, 98, 99]).length = 64 ∧
    allLowerHex (sha256hex [97, 98, 99]) = true ∧
    calculate_file_hash fsB "dir/b.bin" = calculate_file_hash fsA "a.pdf" :=
  file_hash_is_sha256_hex fsA fsB "a.pdf" "dir/b.bin" [97, 98, 99] rfl rfl

/-! ### The page loop: characterisation of `extractLoop` -/

/-- The loop of `_extract_text` computes, for the non-blank pages in
physical order: the markdown sections, the numbered summary lines, and the
union of the keyword sets. -/
theorem extractLoop_eq (pages : List Page) (n : Nat) :
    extractLoop pages n =
      (((List.enumFrom n pages).filter fun np => !pageBlank np.2).map
         fun np => (process_page np.2.outcome).markdown_text,
       ((List.enumFrom n pages).filter fun np => !pageBlank np.2).map
         fun np => summaryLine np.1 (process_page np.2.outcome),
       ((List.enumFrom n pages).filter fun np => !pageBlank np.2).foldr
         (fun np acc => (process_page np.2.outcome).keywords.toFinset ∪ acc) ∅) := by
  induction pages generalizing n with
  | nil => rfl
  | cons p rest ih =>
    simp only [extractLoop, List.enumFrom_cons, List.filter_cons]
    by_cases hb : pageBlank p
    · simp [hb, ih]
    · simp [hb, ih]

theorem length_filter_enumFrom (pages : List Page) (n : Nat) :
    ((List.enumFrom n pages).filter fun np => !pageBlank np.2).length =
      (pages.filter fun q => !pageBlank q).length := by
  induction pages generalizing n with
  | nil => rfl
  | cons p rest ih =>
    simp only [List.enumFrom_cons, List.filter_cons]
    by_cases hb : pageBlank p <;> simp [hb, ih]

/-- C2: the content string returned by `_extract_text` is the blank-line
join, in physical page order, of the converted texts of exactly the pages
whose raw text is non-empty after stripping; blank pages contribute nothing
to the content, the page-summary lines, or the keyword set; each processed
page's summary line is prefixed with its 1-based physical page number. -/
theorem extract_text_joins_nonblank_pages (env : Env) (path : String) (pages : List Page)
    (hkey : env.apiKeyPresent = true) (hpages : env.pages path = pages) :
    extract_text env path =
      .ok ((String.intercalate "\n\n" ((processedPages pages).map
              fun np => (process_page np.2.outcome).markdown_text),
            (generate_final_summary
              (String.intercalate "\n\n" ((processedPages pages).map
                fun np => summaryLine np.1 (process_page np.2.outcome)))
              ((processedPages pages).foldr
                (fun np acc => (process_page np.2.outcome).keywords.toFinset ∪ acc) ∅)
              env.sumOutcome).summary,
            (generate_final_summary
              (String.intercalate "\n\n" ((processedPages pages).map
                fun np => summaryLine np.1 (process_page np.2.outcome)))
              ((processedPages pages).foldr
                (fun np acc => (process_page np.2.outcome).keywords.toFinset ∪ acc) ∅)
              env.sumOutcome).keywords),
           extractTrace pages) ∧
    (extractLoop pages 1).1 = (processedPages pages).map
        (fun np => (process_page np.2.outcome).markdown_text) ∧
    (extractLoop pages 1).2.1 = (processedPages pages).map
        (fun np => summaryLine np.1 (process_page np.2.outcome)) ∧
    (extractLoop pages 1).2.2 = (processedPages pages).foldr
        (fun np acc => (process_page np.2.outcome).keywords.toFinset ∪ acc) ∅ := by
  have hl := extractLoop_eq pages 1
  have hp : processedPages pages =
      (List.enumFrom 1 pages).filter fun np => !pageBlank np.2 := rfl
  refine ⟨?_, ?_, ?_, ?_⟩
  · simp only [extract_text, hkey, if_true, hpages, hl, hp]
  · rw [hl, hp]
  · rw [hl, hp]
  · rw [hl, hp]

/-- Witness for C2 on a three-page document (blank page, degraded page,
successful page). -/
theorem extract_text_joins_nonblank_pages_witness :
    (extractLoop [pBlankEx, pFailEx, pGoodEx] 1).1 =
      (processedPages [pBlankEx, pFailEx, pGoodEx]).map
        (fun np => (process_page np.2.outcome).markdown_text) :=
  (extract_text_joins_nonblank_pages envExtract "doc.pdf" [pBlankEx, pFailEx, pGoodEx]
    rfl rfl).2.1

/-- Concrete check of the loop on the three example pages: the blank page is
dropped, the degraded page contributes an empty section and a numbered error
summary line, page numbers are physical. -/
theorem extractLoop_concrete_vector :
    extractLoop [pBlankEx, pFailEx, pGoodEx] 1 =
      (["", "## World"],
       ["Page 2 Summary: Error processing page: Error converting page to image: page is None",
        "Page 3 Summary: w sum"],
       {"alpha", "beta"}) := by
  decide

/-- Validation of the strip model across the whole `str.strip()` whitespace
set: control separators, NEL, NBSP, and Unicode spaces strip to empty, so a
page holding only such characters is blank and skipped by the loop. -/
theorem pyStrip_unicode_whitespace_vector :
    pyStrip "\x1c\x1d\x1e\x1f" = "" ∧
    pyStrip "\u0085\u00A0" = "" ∧
    pyStrip "\u1680\u2000\u2009\u200A\u2028\u2029\u202F\u205F\u3000" = "" ∧
    pyStrip " \t\nx\u00A0" = "x" ∧
    pageBlank ⟨"\u00A0", ⟨.ok "img", .ok (.text "{}")⟩⟩ = true ∧
    pageBlank ⟨"\x1c", ⟨.ok "img", .ok (.text "{}")⟩⟩ = true := by
  decide

/-- C10: a page with non-blank raw text whose analysis fails still
contributes: the section count equals the count of non-blank pages, the
degraded page's empty markdown is one of the joined sections, and its
numbered error summary line is among the summary lines. -/
theorem failed_page_still_contributes (pages : List Page) (n : Nat) (p : Page) (e : String)
    (hmem : (n, p) ∈ processedPages pages)
    (hfail : pageTryBlock p.outcome = .error e) :
    (extractLoop pages 1).1.length = (pages.filter fun q => !pageBlank q).length ∧
    (extractLoop pages 1).1 = (processedPages pages).map
        (fun np => (process_page np.2.outcome).markdown_text) ∧
    (process_page p.outcome).markdown_text = "" ∧
    "" ∈ (extractLoop pages 1).1 ∧
    summaryLine n (process_page p.outcome) =
      "Page " ++ toString n ++ " Summary: " ++ ("Error processing page: " ++ e) ∧
    summaryLine n (process_page p.outcome) ∈ (extractLoop pages 1).2.1 := by
  have hl := extractLoop_eq pages 1
  have hp : processedPages pages =
      (List.enumFrom 1 pages).filter fun np => !pageBlank np.2 := rfl
  have hmd : process_page p.outcome = ⟨"", "Error processing page: " ++ e, []⟩ := by
    simp [process_page, hfail]
  refine ⟨?_, ?_, ?_, ?_, ?_, ?_⟩
  · rw [hl]
    simp only [List.length_map]
    exact length_filter_enumFrom pages 1
  · rw [hl, hp]
  · rw [hmd]
  · rw [hl]
    refine List.mem_map.mpr ⟨(n, p), ?_, ?_⟩
    · rw [← hp]; exact hmem
    · rw [hmd]
  · rw [summaryLine, hmd]
  · rw [hl]
    refine List.mem_map.mpr ⟨(n, p), ?_, rfl⟩
    rw [← hp]; exact hmem

/-- Witness for C10: the degraded second page of the example document. -/
theorem failed_page_still_contributes_witness :
    (extractLoop [pBlankEx, pFailEx, pGoodEx] 1).1.length =
      ([pBlankEx, pFailEx, pGoodEx].filter fun q => !pageBlank q).length ∧
    (process_page pFailEx.outcome).markdown_text = "" :=
  ⟨(failed_page_still_contributes [pBlankEx, pFailEx, pGoodEx] 2 pFailEx
      "Error converting page to image: page is None" (by decide) rfl).1,
   (failed_page_still_contributes [pBlankEx, pFailEx, pGoodEx] 2 pFailEx
      "Error converting page to image: page is None" (by decide) rfl).2.2.1⟩

/-! ### `_process_page` degradation -/

/-- C3: `_process_page` is a total function (never raises), and whenever its
`try:` block fails — null/invalid page, rasterisation failure, service
failure, or a response that does not unpack — it returns the `PageAnalysis`
with empty markdown text, the non-empty summary embedding the error
description, and an empty keyword list. -/
theorem process_page_never_raises (o : PageCallOutcome) (e : String)
    (h : pageTryBlock o = .error e) :
    process_page o = ⟨"", "Error processing page: " ++ e, []⟩ ∧
    (process_page o).markdown_text = "" ∧
    (process_page o).summary = "Error processing page: " ++ e ∧
    (process_page o).summary ≠ "" ∧
    (process_page o).keywords = [] := by
  have hp : process_page o = ⟨"", "Error processing page: " ++ e, []⟩ := by
    simp [process_page, h]
  refine ⟨hp, by rw [hp], by rw [hp], ?_, by rw [hp]⟩
  rw [hp]
  show ("Error processing page: " ++ e) ≠ ""
  intro hemp
  have hlen := congrArg String.length hemp
  rw [String.length_append] at hlen
  have h23 : ("Error processing page: " : String).length = 23 := rfl
  have h0 : ("" : String).length = 0 := rfl
  omega

/-- Witness for C3: a null page (rasterisation raises before any call). -/
theorem process_page_never_raises_witness :
    process_page pFailEx.outcome =
      ⟨"", "Error processing page: " ++ "Error converting page to image: page is None", []⟩ ∧
    (process_page pFailEx.outcome).summary ≠ "" :=
  ⟨(process_page_never_raises pFailEx.outcome
      "Error converting page to image: page is None" rfl).1,
   (process_page_never_raises pFailEx.outcome
      "Error converting page to image: page is None" rfl).2.2.2.1⟩

/-- C4 as stated is refuted: nothing in `_process_page` or the `PageAnalysis`
model bounds the keyword list, so a structured (mapping) service response
carrying four keywords is passed through with all four. -/
theorem process_page_four_keywords_counterexample :
    (process_page ⟨.ok "img",
        .ok (.mapping "md" "s" ["k1", "k2", "k3", "k4"])⟩).keywords.length = 4 ∧
    ¬ ((process_page ⟨.ok "img",
        .ok (.mapping "md" "s" ["k1", "k2", "k3", "k4"])⟩).keywords.length ≤ 3) := by
  decide

/-- C4 amended: whenever the service call fails or its response content is
not a mapping — in particular for every string content, the only shape the
real client returns — the keyword list of the returned `PageAnalysis` is
empty, hence of length at most 3. The bound is not enforced for mapping
responses. -/
theorem process_page_keywords_empty_unless_mapping (o : PageCallOutcome)
    (h : isMappingContent o.apiResult = false) :
    (process_page o).keywords = [] ∧ (process_page o).keywords.length ≤ 3 := by
  rcases o with ⟨enc, api⟩
  rcases enc with e | b
  · simp [process_page, pageTryBlock, encode_page_image, Except.bind, bind]
  · rcases api with e | c
    · simp [process_page, pageTryBlock, encode_page_image, Except.bind, bind]
    · rcases c with s | ⟨m, s, k⟩ | err
      · simp [process_page, pageTryBlock, encode_page_image, parsePageContent,
          Except.bind, bind]
      · simp [isMappingContent] at h
      · simp [process_page, pageTryBlock, encode_page_image, parsePageContent,
          Except.bind, bind]

/-- Witness for the amended C4: a string-content response (the real client's
shape) yields an empty keyword list. -/
theorem process_page_keywords_empty_unless_mapping_witness :
    (process_page ⟨Except.ok "img", Except.ok (ApiContent.text "not json")⟩).keywords = [] ∧
    (process_page ⟨Except.ok "img",
        Except.ok (ApiContent.text "not json")⟩).keywords.length ≤ 3 :=
  process_page_keywords_empty_unless_mapping ⟨.ok "img", .ok (.text "not json")⟩ rfl

/-! ### Dict and store lemmas -/

theorem dictUpdate_cons (d : Dict) (k1 : String) (v1 : DVal) (rest : Dict) :
    dictUpdate d ((k1, v1) :: rest) = dictUpdate (dictSet d k1 v1) rest := rfl

theorem dictGet_dictSet_self (d : Dict) (k : String) (v : DVal) :
    dictGet (dictSet d k v) k = some v := by
  induction d with
  | nil => simp [dictSet, dictGet]
  | cons kv d ih =>
    rcases kv with ⟨k1, v1⟩
    simp only [dictSet]
    by_cases h : k1 = k
    · simp [dictGet, h]
    · simp [dictGet, h, ih]

theorem dictGet_dictSet_ne (d : Dict) (k k2 : String) (v : DVal) (h : k ≠ k2) :
    dictGet (dictSet d k v) k2 = dictGet d k2 := by
  induction d with
  | nil => simp [dictSet, dictGet, h]
  | cons kv d ih =>
    rcases kv with ⟨k1, v1⟩
    simp only [dictSet]
    by_cases h1 : k1 = k
    · subst h1
      simp [dictGet, h]
    · simp only [if_neg h1, dictGet]
      by_cases h2 : k1 = k2 <;> simp [h2, ih]

theorem dictGet_dictUpdate_not_mem (other : Dict) (d : Dict) (k : String)
    (h : k ∉ dictKeys other) :
    dictGet (dictUpdate d other) k = dictGet d k := by
  induction other generalizing d with
  | nil => rfl
  | cons kv rest ih =>
    rcases kv with ⟨k1, v1⟩
    simp only [dictKeys, List.map_cons, List.mem_cons, not_or] at h
    rw [dictUpdate_cons, ih (dictSet d k1 v1) (by simpa [dictKeys] using h.2)]
    exact dictGet_dictSet_ne d k1 k v1 fun he => h.1 he.symm

theorem dictGet_dictUpdate_of_get (other : Dict) (d : Dict) (k : String) (v : DVal)
    (hnodup : (dictKeys other).Nodup) (hget : dictGet other k = some v) :
    dictGet (dictUpdate d other) k = some v := by
  induction other generalizing d with
  | nil => simp [dictGet] at hget
  | cons kv rest ih =>
    rcases kv with ⟨k1, v1⟩
    simp only [dictKeys, List.map_cons, List.nodup_cons] at hnodup
    simp only [dictGet] at hget
    by_cases h : k1 = k
    · subst h
      simp only [if_true, eq_self_iff_true, Option.some.injEq] at hget
      subst hget
      rw [dictUpdate_cons,
        dictGet_dictUpdate_not_mem rest (dictSet d k1 v1) k1 (by simpa [dictKeys] using hnodup.1)]
      exact dictGet_dictSet_self d k1 v1
    · rw [if_neg h] at hget
      rw [dictUpdate_cons]
      exact ih (dictSet d k1 v1) hnodup.2 hget

theorem dict_isEmpty_false_of_get (d : Dict) (k : String) (v : DVal)
    (h : dictGet d k = some v) : d.isEmpty = false := by
  cases d with
  | nil => simp [dictGet] at h
  | cons kv d => rfl

theorem storeGet_append_left (st : Store) (d : Dict) (r : Nat) (h : r < st.length) :
    storeGet (st ++ [d]) r = storeGet st r := by
  unfold storeGet
  exact List.getD_append st [d] [] r h

theorem storeGet_append_self (st : Store) (d : Dict) :
    storeGet (st ++ [d]) st.length = d := by
  unfold storeGet
  rw [List.getD_eq_getElem?_getD, List.getElem?_concat_length]
  rfl

theorem storeGet_set_ne (st : Store) (i r : Nat) (d : Dict) (h : i ≠ r) :
    storeGet (st.set i d) r = storeGet st r := by
  unfold storeGet
  rw [List.getD_eq_getElem?_getD, List.getD_eq_getElem?_getD, List.getElem?_set_ne h]

theorem storeGet_modify_ne (st : Store) (i r : Nat) (f : Dict → Dict) (h : i ≠ r) :
    storeGet (storeModify st i f) r = storeGet st r :=
  storeGet_set_ne st i r _ h

theorem storeGet_modify_self (st : Store) (i : Nat) (f : Dict → Dict) (h : i < st.length) :
    storeGet (storeModify st i f) i = f (storeGet st i) := by
  unfold storeModify storeGet
  rw [List.getD_eq_getElem?_getD, List.getElem?_set_self h]
  rfl

theorem storeModify_length (st : Store) (i : Nat) (f : Dict → Dict) :
    (storeModify st i f).length = st.length := by
  unfold storeModify
  exact List.length_set st i _

/-! ### `convert`: fatal errors and effect ordering -/

/-- C5: `convert` on a nonexistent path fails with `FileNotFoundError`
immediately: the store is untouched and the event trace is empty, so no
external-service call, no file read, and no hash computation happen,
whatever the metadata argument is. -/
theorem convert_missing_file_not_found (env : Env) (path : String) (r : Option Nat)
    (store : Store) (h : env.files path = none) :
    convert env path r store =
      ⟨.error (.fileNotFound ("PDF file not found: " ++ path)), store, []⟩ := by
  simp [convert, h]

/-- Witness for C5: `convert("missing.pdf")` with a caller dict present. -/
theorem convert_missing_file_not_found_witness :
    convert envExtract "missing.pdf" (some 0) [[("a", DVal.str "b")]] =
      ⟨.error (.fileNotFound ("PDF file not found: " ++ "missing.pdf")),
       [[("a", DVal.str "b")]], []⟩ :=
  convert_missing_file_not_found envExtract "missing.pdf" (some 0)
    [[("a", DVal.str "b")]] rfl

/-- C6 as stated is refuted: with an existing file and no configured key,
the conversion does fail before any service call, but only after the file
has been read and hashed (the trace already holds the file read), and the
surfaced error is the generic wrapped processing `ValueError`, not a
distinct configuration kind. -/
theorem convert_missing_key_counterexample :
    (convert envNoKey "doc.pdf" none []).result =
      .error (.valueError ("Error processing PDF: " ++ openAIKeyError)) ∧
    (convert envNoKey "doc.pdf" none []).trace = [.fileRead "doc.pdf"] := by
  exact ⟨by decide, by decide⟩

/-- C6 amended: when the credential is missing, `convert` fails before any
external-service call is attempted (the trace holds no service call), but
after the file has been read for hashing; the failure surfaces as the
generic `ValueError("Error processing PDF: ...")` embedding the credential
error message, not as a distinct configuration-error kind. -/
theorem convert_missing_key_wrapped_after_hash (env : Env) (path : String) (r : Option Nat)
    (store : Store) (bytes : List Nat)
    (hb : env.files path = some bytes) (hk : env.apiKeyPresent = false) :
    convert env path r store =
      ⟨.error (.valueError ("Error processing PDF: " ++ openAIKeyError)),
       store ++ [get_document_metadata path bytes], [.fileRead path]⟩ ∧
    Event.serviceCall ∉ (convert env path r store).trace := by
  have hc : convert env path r store =
      ⟨.error (.valueError ("Error processing PDF: " ++ openAIKeyError)),
       store ++ [get_document_metadata path bytes], [.fileRead path]⟩ := by
    simp [convert, hb, extract_text, hk]
  refine ⟨hc, ?_⟩
  rw [hc]
  simp

/-- Witness for the amended C6. -/
theorem convert_missing_key_wrapped_after_hash_witness :
    convert envNoKey "doc.pdf" (some 0) [[("k", DVal.str "v")]] =
      ⟨.error (.valueError ("Error processing PDF: " ++ openAIKeyError)),
       [("k", DVal.str "v")] :: [get_document_metadata "doc.pdf" [37, 80, 68, 70]],
       [.fileRead "doc.pdf"]⟩ ∧
    Event.serviceCall ∉ (convert envNoKey "doc.pdf" (some 0) [[("k", DVal.str "v")]]).trace :=
  convert_missing_key_wrapped_after_hash envNoKey "doc.pdf" (some 0)
    [[("k", DVal.str "v")]] [37, 80, 68, 70] rfl rfl

/-! ### Normal form of a successful `convert` -/

theorem storeModify_append_self (st : Store) (d : Dict) (f : Dict → Dict) :
    storeModify (st ++ [d]) st.length f = st ++ [f d] := by
  unfold storeModify
  rw [storeGet_append_self, List.set_append_right _ _ (Nat.le_refl _)]
  simp

theorem extract_text_ok (env : Env) (path : String) (hk : env.apiKeyPresent = true) :
    extract_text env path = .ok
      ((String.intercalate "\n\n" (extractLoop (env.pages path) 1).1,
        (generate_final_summary (String.intercalate "\n\n" (extractLoop (env.pages path) 1).2.1)
          (extractLoop (env.pages path) 1).2.2 env.sumOutcome).summary,
        (generate_final_summary (String.intercalate "\n\n" (extractLoop (env.pages path) 1).2.1)
          (extractLoop (env.pages path) 1).2.2 env.sumOutcome).keywords),
       extractTrace (env.pages path)) := by
  simp only [extract_text, hk, if_true]

theorem convert_ok_none (env : Env) (path : String) (store : Store) (bytes : List Nat)
    (c s : String) (kw : List String) (tr : List Event)
    (hb : env.files path = some bytes)
    (hext : extract_text env path = .ok ((c, s, kw), tr)) :
    convert env path none store =
      ⟨.ok ⟨c, assembledMeta path bytes s kw⟩,
       store ++ [assembledMeta path bytes s kw], .fileRead path :: tr⟩ := by
  simp only [convert, hb, hext, assembledMeta, storeModify_append_self, storeGet_append_self]

theorem convert_ok_some (env : Env) (path : String) (store : Store) (r : Nat)
    (bytes : List Nat) (c s : String) (kw : List String) (tr : List Event)
    (hb : env.files path = some bytes)
    (hext : extract_text env path = .ok ((c, s, kw), tr))
    (hr : r < store.length) :
    convert env path (some r) store =
      (if (storeGet store r).isEmpty then
         ⟨.ok ⟨c, assembledMeta path bytes s kw⟩,
          store ++ [assembledMeta path bytes s kw], .fileRead path :: tr⟩
       else
         ⟨.ok ⟨c, dictUpdate (assembledMeta path bytes s kw) (storeGet store r)⟩,
          store ++ [dictUpdate (assembledMeta path bytes s kw) (storeGet store r)],
          .fileRead path :: tr⟩) := by
  have hsg : storeGet (store ++ [dictSet (dictSet (get_document_metadata path bytes)
      "document_summary" (.str s)) "keywords" (.strs kw)]) r = storeGet store r :=
    storeGet_append_left store _ r hr
  simp only [convert, hb, hext, storeModify_append_self, hsg]
  by_cases he : (storeGet store r).isEmpty = true
  · simp [he, assembledMeta, storeGet_append_self]
  · simp [he, assembledMeta, storeGet_append_self]

theorem dictGet_assembledMeta_title (path : String) (bytes : List Nat) (s : String)
    (kw : List String) :
    dictGet (assembledMeta path bytes s kw) "title" = some (.str (pathStem path)) := by
  unfold assembledMeta get_document_metadata
  rw [dictGet_dictSet_ne _ _ _ _ (by decide), dictGet_dictSet_ne _ _ _ _ (by decide)]
  simp [dictGet]

/-! ### `convert`: metadata assembly -/

/-- C7: on every successful conversion, the caller-supplied metadata entries
are merged last, so every key the caller binds — including the computed keys
`title`, `document_id`, `document_summary`, `keywords` — ends up with the
caller's value in the returned record. -/
theorem convert_caller_metadata_wins (env : Env) (path : String) (r : Nat) (store : Store)
    (bytes : List Nat) (k : String) (v : DVal)
    (hb : env.files path = some bytes) (hk : env.apiKeyPresent = true)
    (hr : r < store.length)
    (hnodup : (dictKeys (storeGet store r)).Nodup)
    (hget : dictGet (storeGet store r) k = some v) :
    (convert env path (some r) store).result.isOk = true ∧
    convertMetadataLookup (convert env path (some r) store) k = some v := by
  have hc := convert_ok_some env path store r bytes _ _ _ _ hb (extract_text_ok env path hk) hr
  have hne : ¬ ((storeGet store r).isEmpty = true) := by
    rw [dict_isEmpty_false_of_get _ k v hget]
    simp
  rw [if_neg hne] at hc
  constructor
  · rw [hc]
    rfl
  · rw [convertMetadataLookup, hc]
    exact dictGet_dictUpdate_of_get _ _ k v hnodup hget

/-- Witness for C7: the caller overrides the computed `title`. -/
theorem convert_caller_metadata_wins_witness :
    (convert envExtract "doc.pdf" (some 0)
        [[("note", DVal.str "mine"), ("title", DVal.str "T")]]).result.isOk = true ∧
    convertMetadataLookup (convert envExtract "doc.pdf" (some 0)
        [[("note", DVal.str "mine"), ("title", DVal.str "T")]]) "title" =
      some (DVal.str "T") :=
  convert_caller_metadata_wins envExtract "doc.pdf" 0
    [[("note", DVal.str "mine"), ("title", DVal.str "T")]] [97, 98, 99] "title"
    (DVal.str "T") rfl rfl (by decide) (by decide) (by decide)

/-- C8 as stated is refuted: when the caller's metadata itself binds
`title`, the caller's value — not the file name without extension — is what
the returned record holds, as C7 requires. -/
theorem convert_title_override_counterexample :
    convertMetadataLookup
        (convert envPlain "dir/doc.pdf" (some 0) [[("title", DVal.str "Custom")]]) "title" =
      some (.str "Custom") ∧
    pathStem "dir/doc.pdf" = "doc" ∧
    DVal.str "Custom" ≠ DVal.str (pathStem "dir/doc.pdf") := by
  refine ⟨by decide, by decide, by decide⟩

/-- C8 amended: on every successful conversion whose caller metadata is
absent or does not bind `title`, the returned record's metadata holds
`title` equal to the source file's name with its extension removed. -/
theorem convert_title_is_stem_unless_overridden (env : Env) (path : String)
    (rOpt : Option Nat) (store : Store) (bytes : List Nat)
    (hb : env.files path = some bytes) (hk : env.apiKeyPresent = true)
    (hcaller : match rOpt with
               | none => True
               | some i => i < store.length ∧ "title" ∉ dictKeys (storeGet store i)) :
    (convert env path rOpt store).result.isOk = true ∧
    convertMetadataLookup (convert env path rOpt store) "title" =
      some (.str (pathStem path)) := by
  match rOpt with
  | none =>
    have hc := convert_ok_none env path store bytes _ _ _ _ hb (extract_text_ok env path hk)
    rw [hc]
    exact ⟨rfl, dictGet_assembledMeta_title path bytes _ _⟩
  | some i =>
    obtain ⟨hi, htitle⟩ := hcaller
    have hc := convert_ok_some env path store i bytes _ _ _ _ hb (extract_text_ok env path hk) hi
    by_cases he : (storeGet store i).isEmpty = true
    · rw [if_pos he] at hc
      rw [hc]
      exact ⟨rfl, dictGet_assembledMeta_title path bytes _ _⟩
    · rw [if_neg he] at hc
      rw [hc]
      refine ⟨rfl, ?_⟩
      rw [convertMetadataLookup]
      simp only []
      rw [dictGet_dictUpdate_not_mem _ _ _ htitle]
      exact dictGet_assembledMeta_title path bytes _ _

/-- Witness for the amended C8: no caller metadata. -/
theorem convert_title_is_stem_unless_overridden_witness :
    (convert envPlain "dir/doc.pdf" none []).result.isOk = true ∧
    convertMetadataLookup (convert envPlain "dir/doc.pdf" none []) "title" =
      some (.str (pathStem "dir/doc.pdf")) :=
  convert_title_is_stem_unless_overridden envPlain "dir/doc.pdf" none [] [37]
    rfl rfl trivial

/-- C9: `convert` never mutates the caller's metadata mapping: whatever the
run does, the caller's dict in the store is unchanged — `convert` only reads
it into its own fresh `doc_metadata` dict. -/
theorem convert_preserves_caller_mapping (env : Env) (path : String) (r : Nat)
    (store : Store) (hr : r < store.length) :
    storeGet ((convert env path (some r) store).store) r = storeGet store r := by
  cases hf : env.files path with
  | none => simp [convert, hf]
  | some bytes =>
    cases hk : env.apiKeyPresent with
    | false =>
      have hc : convert env path (some r) store =
          ⟨.error (.valueError ("Error processing PDF: " ++ openAIKeyError)),
           store ++ [get_document_metadata path bytes], [.fileRead path]⟩ := by
        simp [convert, hf, extract_text, hk]
      rw [hc]
      exact storeGet_append_left store _ r hr
    | true =>
      have hc := convert_ok_some env path store r bytes _ _ _ _ hf
        (extract_text_ok env path hk) hr
      rw [hc]
      by_cases he : (storeGet store r).isEmpty = true
      · rw [if_pos he]
        exact storeGet_append_left store _ r hr
      · rw [if_neg he]
        exact storeGet_append_left store _ r hr

/-- Witness for C9: the caller's dict is intact after a successful run. -/
theorem convert_preserves_caller_mapping_witness :
    storeGet ((convert envExtract "doc.pdf" (some 0) [[("a", DVal.str "b")]]).store) 0 =
      storeGet [[("a", DVal.str "b")]] 0 :=
  convert_preserves_caller_mapping envExtract "doc.pdf" 0 [[("a", DVal.str "b")]]
    (by decide)

end PdfToLcDoc
